import Mathlib

/-!
Verification of the typed-jobs job execution engine.

The definitions below are a shallow embedding of the engine's core
(`SimpleJob`, its handler wrapper, and the driver registry), translated
from the TypeScript source.  JavaScript numbers used as counters are
modelled as `Nat`; the JavaScript `||` operator on numbers treats `0`
(and `undefined`) as falsy, which is modelled explicitly by `jsOr`.
Fallible operations are modelled with `Except`.
-/

namespace TypedJobs

/-- Per-message options attached by the backend to a delivered job
(`DriverJob.opts` in `drivers/types`): `attempts?: number; delay?: number`. -/
structure JobOpts where
  attempts : Option Nat
  delay : Option Nat
deriving Repr, DecidableEq

/-- A backend-delivered message (`DriverJob<TData>` in `drivers/types`):
`{id, name, data, attemptsMade (0-based), opts}`. -/
structure DriverJob (α : Type) where
  id : String
  name : String
  data : α
  attemptsMade : Nat
  opts : JobOpts
deriving Repr, DecidableEq

/-- Job-definition-time options (`JobOptions`): only `name` is required. -/
structure JobOptions where
  name : String
  concurrency : Option Nat
  attempts : Option Nat
  backoffDelay : Option Nat
  removeOnComplete : Option Nat
  removeOnFail : Option Nat
deriving Repr, DecidableEq

/-- JavaScript `a || b` for an optional non-negative number `a`:
`undefined` and `0` are falsy, any other number is truthy. -/
def jsOr (a : Option Nat) (b : Nat) : Nat :=
  match a with
  | some v => if v ≠ 0 then v else b
  | none => b

/-- `job.opts.attempts || this.options.attempts || 3`, the `maxAttempts`
expression of the handler wrapper in `SimpleJob.register`. -/
def resolveMaxAttempts (messageAttempts : Option Nat) (jobAttempts : Option Nat) : Nat :=
  jsOr messageAttempts (jsOr jobAttempts 3)

/-- The scalar fields of the per-invocation `JobContext` built by the
handler wrapper (the `redispatch` closures are modelled separately as
operations on the job's queue state). -/
structure JobContext (α : Type) where
  data : α
  attempt : Nat
  maxAttempts : Nat
  canRetry : Bool
deriving Repr, DecidableEq

/-- Context construction from `SimpleJob.register`'s handler wrapper:
`attempt = job.attemptsMade + 1`, `maxAttempts` via the `||` chain,
`canRetry = attempt < maxAttempts` (same `||` chain re-evaluated). -/
def buildContext {α : Type} (job : DriverJob α) (jobAttempts : Option Nat) : JobContext α :=
  { data := job.data
    attempt := job.attemptsMade + 1
    maxAttempts := resolveMaxAttempts job.opts.attempts jobAttempts
    canRetry := decide (job.attemptsMade + 1 < resolveMaxAttempts job.opts.attempts jobAttempts) }

/-- Modelled from the spec: the claimed `maxAttempts` precedence, taking a
per-message override whenever the backend attaches one (any value),
otherwise the job-level option whenever set, otherwise 3.  This is the
spec's reading, to be compared with `resolveMaxAttempts` from the source. -/
def specMaxAttempts (messageAttempts : Option Nat) (jobAttempts : Option Nat) : Nat :=
  messageAttempts.getD (jobAttempts.getD 3)

/-- The amended precedence: a per-message override is honoured only when
it is attached and nonzero (JavaScript-truthy); likewise the job-level
option; otherwise the default 3. -/
def amendedMaxAttempts (messageAttempts : Option Nat) (jobAttempts : Option Nat) : Nat :=
  (Option.or (messageAttempts.filter (fun v => v ≠ 0))
    (jobAttempts.filter (fun v => v ≠ 0))).getD 3

/-- A thrown JavaScript value: either an `Error` object with a message, or
any other value (stringified by `String(error)` in the catch block). -/
inductive JsError where
  | errorObj (message : String)
  | other (stringified : String)
deriving Repr, DecidableEq

/-- `error instanceof Error ? error.message : String(error)`. -/
def errMessage : JsError → String
  | .errorObj m => m
  | .other s => s

/-- The handler wrapper's return value (`JobResult`): `{success, data?, error?}`. -/
structure JobResult (β : Type) where
  success : Bool
  data : Option β
  error : Option String
deriving Repr, DecidableEq

/-- The handler wrapper's try/catch from `SimpleJob.register`: the user
handler either returns a value or throws (`Except JsError β`); the wrapper
always returns exactly one `JobResult` and never re-throws.  Totality of
this function is the embedding of "no exception propagates out". -/
def runHandlerWrapper {α β : Type} (handler : JobContext α → Except JsError β)
    (job : DriverJob α) (jobAttempts : Option Nat) : JobResult β :=
  match handler (buildContext job jobAttempts) with
  | .ok r => { success := true, data := some r, error := none }
  | .error e => { success := false, data := none, error := some (errMessage e) }

/-! ## Driver registry (`driver-manager.ts` and `drivers/index.ts`) -/

/-- Configuration of the Redis driver (`RedisDriverConfig`). -/
structure RedisDriverConfig where
  host : Option String
  port : Option Nat
  password : Option String
  username : Option String
  tls : Option Bool
deriving Repr, DecidableEq

/-- The backend kinds accepted by the driver factory (`DriverType`). -/
inductive DriverType where
  | redis
  | rabbitmq
deriving Repr, DecidableEq

/-- Argument of the driver factory (`DriverFactoryConfig`). -/
structure DriverFactoryConfig where
  type : DriverType
  redis : Option RedisDriverConfig
deriving Repr, DecidableEq

/-- An installed driver; the Redis driver keeps its (optional) config. -/
inductive Driver where
  | redisDriver (config : Option RedisDriverConfig)
deriving Repr, DecidableEq

/-- `createDriver` from `drivers/index.ts`: constructs a Redis driver, or
throws for the not-yet-implemented RabbitMQ backend. -/
def createDriver (config : DriverFactoryConfig) : Except String Driver :=
  match config.type with
  | .redis => .ok (Driver.redisDriver config.redis)
  | .rabbitmq => .error "RabbitMQ driver not yet implemented"

/-- `setDriver` from `driver-manager.ts`: `globalDriver = createDriver(config)`.
On success the new registry state holds the constructed driver; if
`createDriver` throws, the assignment never happens and the old state is kept
(the `Except.error` carries the thrown message). -/
def setDriver (config : DriverFactoryConfig) : Except String (Option Driver) :=
  (createDriver config).map some

/-- `getDriver` from `driver-manager.ts`: throws when no driver is installed. -/
def getDriver (globalDriver : Option Driver) : Except String Driver :=
  match globalDriver with
  | none => .error "Driver not initialized. Call setDriver() or configure via typed-jobs.config.ts"
  | some d => .ok d

/-- `hasDriver` from `driver-manager.ts`: `globalDriver !== null`. -/
def hasDriver (globalDriver : Option Driver) : Bool :=
  globalDriver.isSome

/-! ## The SimpleJob state machine (the lazy-queue variant of `job.ts`)

A `SimpleJob` holds `queue: DriverQueue | null` and
`worker: DriverWorker | null`.  Backend handles created by
`driver.createQueue` / `driver.createWorker` are modelled by fresh
numeric identities drawn from a counter, so that "the same handle" and
"a distinct handle" are expressible.  Every call to `queue.add` is
recorded in an append-only trace. -/

/-- A backend queue handle: its object identity and its queue name
(`DriverQueue.name`, set from `options.name` at creation). -/
structure QueueHandle where
  id : Nat
  name : String
deriving Repr, DecidableEq

/-- The options object passed to `queue.add` (`{delay?: number}`). -/
structure AddOpts where
  delay : Option Nat
deriving Repr, DecidableEq

/-- One recorded `queue.add(name, data, options?)` call. -/
structure AddCall (α : Type) where
  queueName : String
  data : α
  opts : Option AddOpts
deriving Repr, DecidableEq

/-- The mutable state of one `SimpleJob` plus the trace of backend calls it
has made.  `nextHandle` is the source of fresh backend-handle identities;
`createdQueues` / `createdWorkers` count `driver.createQueue` /
`driver.createWorker` invocations. -/
structure World (α : Type) where
  queue : Option QueueHandle
  worker : Option Nat
  nextHandle : Nat
  createdQueues : Nat
  createdWorkers : Nat
  adds : List (AddCall α)
deriving Repr, DecidableEq

/-- `SimpleJob.getQueue`: return the existing queue if present, otherwise
create one via the driver (fresh handle, named `options.name`) and cache it. -/
def getQueue {α : Type} (options : JobOptions) (w : World α) : QueueHandle × World α :=
  match w.queue with
  | some q => (q, w)
  | none =>
      let q : QueueHandle := ⟨w.nextHandle, options.name⟩
      (q, { w with
              queue := some q
              nextHandle := w.nextHandle + 1
              createdQueues := w.createdQueues + 1 })

/-- `SimpleJob.dispatch`: resolve the queue, then
`driverQueue.add(driverQueue.name, data)` with no options. -/
def dispatch {α : Type} (options : JobOptions) (d : α) (w : World α) :
    QueueHandle × World α :=
  let p := getQueue options w
  (p.1, { p.2 with adds := p.2.adds ++ [⟨p.1.name, d, none⟩] })

/-- `SimpleJob.dispatchWithDelay`: resolve the queue, then
`driverQueue.add(driverQueue.name, data, { delay })`. -/
def dispatchWithDelay {α : Type} (options : JobOptions) (d : α) (delay : Nat)
    (w : World α) : QueueHandle × World α :=
  let p := getQueue options w
  (p.1, { p.2 with adds := p.2.adds ++ [⟨p.1.name, d, some ⟨some delay⟩⟩] })

/-- The `redispatch` / `redispatchWithData` closures built by the handler
wrapper: resolve the queue through the same lazy path, then
`driverQueue.add(driverQueue.name, data, { delay })` with `delay` optional. -/
def redispatch {α : Type} (options : JobOptions) (d : α) (delay : Option Nat)
    (w : World α) : QueueHandle × World α :=
  let p := getQueue options w
  (p.1, { p.2 with adds := p.2.adds ++ [⟨p.1.name, d, some ⟨delay⟩⟩] })

/-- `SimpleJob.register`: throws `"Worker already registered"` if a worker
exists (before touching anything else); otherwise resolves the queue and
creates one worker via the driver.  The returned handle is the queue the
worker was bound to. -/
def register {α : Type} (options : JobOptions) (w : World α) :
    World α × Except String QueueHandle :=
  if w.worker.isSome then (w, .error "Worker already registered")
  else
    let p := getQueue options w
    ({ p.2 with
         worker := some p.2.nextHandle
         nextHandle := p.2.nextHandle + 1
         createdWorkers := p.2.createdWorkers + 1 }, .ok p.1)

/-- A release action performed by `SimpleJob.close`, in order. -/
inductive CloseAction where
  | closeWorker (handle : Nat)
  | closeQueue (handle : Nat)
deriving Repr, DecidableEq

/-- `SimpleJob.close`: if a worker exists, close it and null it; then if a
queue exists, close it and null it.  The action list records the backend
`close()` calls in the order they are awaited. -/
def close {α : Type} (w : World α) : World α × List CloseAction :=
  let p1 : World α × List CloseAction :=
    match w.worker with
    | some wk => ({ w with worker := none }, [CloseAction.closeWorker wk])
    | none => (w, [])
  let p2 : World α × List CloseAction :=
    match p1.1.queue with
    | some q => ({ p1.1 with queue := none }, [CloseAction.closeQueue q.id])
    | none => (p1.1, [])
  (p2.1, p1.2 ++ p2.2)

/-- `SimpleJob.getQueueInstance`: `return this.getQueue()`. -/
def getQueueInstance {α : Type} (options : JobOptions) (w : World α) :
    QueueHandle × World α :=
  getQueue options w

/-- Modelled from the spec: the Driver Contract's visibility semantics for
the `delay` option of `Queue.add` (the concrete backend is an external
collaborator, not part of the engine source).  A message is withheld from
workers for `delay` milliseconds; an absent options object or absent
`delay` means immediate visibility. -/
def visibleDelay : Option AddOpts → Nat
  | none => 0
  | some a => a.delay.getD 0

/-- Two `queue.add` calls are observably equivalent when they target the
same queue name, carry the same payload, and impose the same visibility
delay. -/
def addEquiv {α : Type} (c c' : AddCall α) : Prop :=
  c.queueName = c'.queueName ∧ c.data = c'.data ∧ visibleDelay c.opts = visibleDelay c'.opts

/-- A world with its add-trace erased, for comparing everything else. -/
def stripAdds {α : Type} (w : World α) : World α :=
  { w with adds := [] }

/-- The queue-touching operations of a `SimpleJob` (everything that funnels
through `getQueue`); `close` is deliberately excluded. -/
inductive Op (α : Type) where
  | dispatchOp (d : α)
  | dispatchWithDelayOp (d : α) (delay : Nat)
  | registerOp
  | redispatchOp (d : α) (delay : Option Nat)
  | getQueueInstanceOp
deriving Repr, DecidableEq

/-- Run one operation; the second component is the queue handle the
operation resolved (none when `register` failed its guard before
resolving the queue). -/
def runOp {α : Type} (options : JobOptions) (w : World α) :
    Op α → World α × Option QueueHandle
  | .dispatchOp d => let p := dispatch options d w; (p.2, some p.1)
  | .dispatchWithDelayOp d delay => let p := dispatchWithDelay options d delay w; (p.2, some p.1)
  | .registerOp => let p := register options w; (p.1, p.2.toOption)
  | .redispatchOp d delay => let p := redispatch options d delay w; (p.2, some p.1)
  | .getQueueInstanceOp => let p := getQueueInstance options w; (p.2, some p.1)

/-- Run a sequence of operations, collecting every queue handle resolved. -/
def runOps {α : Type} (options : JobOptions) (w : World α) :
    List (Op α) → World α × List QueueHandle
  | [] => (w, [])
  | op :: ops =>
      let p := runOp options w op
      let r := runOps options p.1 ops
      (r.1, p.2.toList ++ r.2)

/-- The state of a freshly constructed `SimpleJob`: no queue, no worker,
no backend calls made. -/
def initWorld (α : Type) : World α :=
  ⟨none, none, 0, 0, 0, []⟩

/-- The lazy-queue invariant: at most one queue was ever created, and none
was created while the cached queue is still absent. -/
def InvW {α : Type} (w : World α) : Prop :=
  w.createdQueues ≤ 1 ∧ (w.queue = none → w.createdQueues = 0)

/-! ## Concrete inputs used by witnesses and counterexamples -/

/-- A concrete job options record. -/
def opts0 : JobOptions :=
  ⟨"email-job", none, none, none, none, none⟩

/-- The state after a successful `register` on a fresh job with `opts0`. -/
def regW1 : World Nat :=
  ⟨some ⟨0, "email-job"⟩, some 1, 2, 1, 1, []⟩

/-- A delivered message whose backend-attached `opts.attempts` is `0`. -/
def cJob : DriverJob Nat :=
  ⟨"1", "email-job", 0, 0, ⟨some 0, none⟩⟩

/-- A delivered message with no backend-attached options. -/
def wJob : DriverJob Nat :=
  ⟨"7", "email-job", 1, 0, ⟨none, none⟩⟩

/-- A handler that always throws `new Error("boom")`. -/
def throwingHandler : JobContext Nat → Except JsError Nat :=
  fun _ => .error (.errorObj "boom")

/-- A concrete driver factory config selecting the Redis backend. -/
def cfg0 : DriverFactoryConfig :=
  ⟨.redis, none⟩

/-- A concrete operation sequence: dispatch, then register, then fetch the
queue instance. -/
def opsList : List (Op Nat) :=
  [Op.dispatchOp 1, Op.registerOp, Op.getQueueInstanceOp]

end TypedJobs

namespace TypedJobs

/-- C1: for every delivered message with backend-native 0-based counter
`attemptsMade = n`, the context's `attempt` is exactly `n + 1`: the
translation is applied exactly once (a double application would give
`n + 2` for some message, contradicting this exact equation). -/
theorem attempt_is_native_plus_one {α : Type} (job : DriverJob α) (jobAttempts : Option Nat) :
    (buildContext job jobAttempts).attempt = job.attemptsMade + 1 := by
  rfl

/-- C2: for every delivered message, `canRetry` is `true` iff
`attempt < maxAttempts`; in particular on the final allowed attempt
(`attempt = maxAttempts`) it is `false`. -/
theorem canRetry_iff_attempt_lt_max {α : Type} (job : DriverJob α) (jobAttempts : Option Nat) :
    (buildContext job jobAttempts).canRetry = true ↔
      (buildContext job jobAttempts).attempt < (buildContext job jobAttempts).maxAttempts := by
  simp [buildContext]

/-- C3 counterexample: the backend attaches the override `attempts = 0` to
the message (`cJob`) while the job-level option is 5.  The claimed
precedence takes the attached override, so it demands `maxAttempts = 0`;
the code's `||` chain skips the falsy `0` and yields 5. -/
theorem maxAttempts_claim_counterexample :
    (buildContext cJob (some 5)).maxAttempts = 5 ∧
      specMaxAttempts cJob.opts.attempts (some 5) = 0 ∧
      (buildContext cJob (some 5)).maxAttempts ≠ specMaxAttempts cJob.opts.attempts (some 5) := by
  refine ⟨rfl, rfl, ?_⟩
  decide

/-- C3 amended: `maxAttempts` is resolved with precedence among the
JavaScript-truthy candidates: the per-message override when attached and
nonzero, otherwise the job-level `attempts` option when set and nonzero,
otherwise the hard default 3 — for every override value the backend may
attach and every job-level option. -/
theorem maxAttempts_amended_precedence {α : Type} (job : DriverJob α) (jobAttempts : Option Nat) :
    (buildContext job jobAttempts).maxAttempts =
      amendedMaxAttempts job.opts.attempts jobAttempts := by
  rcases job with ⟨id, name, d, n, ⟨ma, md⟩⟩
  simp only [buildContext, resolveMaxAttempts, amendedMaxAttempts]
  cases ma with
  | none =>
      cases jobAttempts with
      | none => rfl
      | some v => by_cases hv : v = 0 <;> simp [jsOr, Option.filter, Option.or, hv]
  | some u =>
      by_cases hu : u = 0 <;> cases jobAttempts with
      | none => simp [jsOr, Option.filter, Option.or, hu]
      | some v => by_cases hv : v = 0 <;> simp [jsOr, Option.filter, Option.or, hu, hv]

/-- C4: the handler wrapper converts a returned value `r` into
`{success: true, data: r}` and a thrown error into
`{success: false, error: message}`; `runHandlerWrapper` is a total
function into `JobResult`, so every invocation yields exactly one Outcome
and no exception propagates out of the wrapper. -/
theorem wrapper_outcome_classification {α β : Type}
    (handler : JobContext α → Except JsError β) (job : DriverJob α)
    (jobAttempts : Option Nat) :
    (∀ r, handler (buildContext job jobAttempts) = .ok r →
      runHandlerWrapper handler job jobAttempts =
        { success := true, data := some r, error := none }) ∧
    (∀ e, handler (buildContext job jobAttempts) = .error e →
      runHandlerWrapper handler job jobAttempts =
        { success := false, data := none, error := some (errMessage e) }) := by
  constructor <;> intro x hx <;> simp [runHandlerWrapper, hx]

/-- C4 witness: a handler that throws `Error("boom")` on a concrete message
yields the failure outcome with that message. -/
theorem wrapper_outcome_witness :
    runHandlerWrapper throwingHandler wJob none =
      { success := false, data := none, error := some "boom" } :=
  (wrapper_outcome_classification throwingHandler wJob none).2 (.errorObj "boom") rfl

/-- C5: if `register` completed successfully (producing state `w1`), a
second `register` call on `w1` throws `"Worker already registered"` and
leaves the state exactly `w1`: no second worker (and no other backend
resource) is ever created. -/
theorem register_twice_fails {α : Type} (options : JobOptions) (w w1 : World α)
    (h : QueueHandle) (hreg : register options w = (w1, .ok h)) :
    register options w1 = (w1, .error "Worker already registered") := by
  unfold register at hreg ⊢
  by_cases hw : w.worker.isSome
  · simp [hw] at hreg
  · simp [hw] at hreg
    have hq : w1.worker = some (getQueue options w).2.nextHandle := by
      rw [← hreg.1]
    simp [hq]

/-- C5 witness: on the concrete post-registration state `regW1`, a second
`register` fails and changes nothing. -/
theorem register_twice_fails_witness :
    register opts0 regW1 = (regW1, .error "Worker already registered") :=
  register_twice_fails opts0 (initWorld Nat) regW1 ⟨0, "email-job"⟩ rfl

/-- C6: `close` is idempotent — a second `close` performs no release
actions and leaves the state unchanged — and within one `close` on a state
holding both a worker and a queue, the worker is released strictly before
the queue.  `close` is a total function, so the second call cannot raise. -/
theorem close_idempotent_worker_first {α : Type} (w : World α) :
    close (close w).1 = ((close w).1, []) ∧
    (∀ wk q, w.worker = some wk → w.queue = some q →
      (close w).2 = [CloseAction.closeWorker wk, CloseAction.closeQueue q.id]) := by
  constructor
  · cases hw : w.worker <;> cases hq : w.queue <;> simp [close, hw, hq]
  · intro wk q hw hq
    simp [close, hw, hq]

/-- C6 witness: on the concrete state `regW1` (one worker, one queue), the
release order is worker then queue, and the second `close` is a no-op. -/
theorem close_idempotent_witness :
    close (close regW1).1 = ((close regW1).1, []) ∧
      (close regW1).2 = [CloseAction.closeWorker 1, CloseAction.closeQueue 0] :=
  ⟨(close_idempotent_worker_first regW1).1,
    (close_idempotent_worker_first regW1).2 1 ⟨0, "email-job"⟩ rfl rfl⟩

/-- C7: in the never-initialized registry state, `getDriver` throws exactly
the initialization error while `hasDriver` returns `false` without
failing; after any `setDriver(config)` call that completes, `getDriver`
returns the installed driver without error. -/
theorem driver_registry_behavior :
    getDriver none =
      .error "Driver not initialized. Call setDriver() or configure via typed-jobs.config.ts" ∧
    hasDriver none = false ∧
    (∀ config st, setDriver config = .ok st →
      ∃ d, st = some d ∧ getDriver st = .ok d ∧ hasDriver st = true) := by
  refine ⟨rfl, rfl, ?_⟩
  intro config st hset
  cases hc : createDriver config with
  | ok d =>
      refine ⟨d, ?_, ?_, ?_⟩ <;>
        simp only [setDriver, hc, Except.map] at hset <;>
        cases hset <;> rfl
  | error e => simp [setDriver, hc, Except.map] at hset

/-- C7 witness: installing the Redis driver via a concrete config makes
`getDriver` return it. -/
theorem driver_registry_witness :
    ∃ d, some (Driver.redisDriver none) = some d ∧
      getDriver (some (Driver.redisDriver none)) = .ok d ∧
      hasDriver (some (Driver.redisDriver none)) = true :=
  driver_registry_behavior.2.2 cfg0 (some (Driver.redisDriver none)) rfl

/-- C8: `dispatchWithDelay(d, 0)` is equivalent to `dispatch(d)`: both
resolve the same queue handle, leave identical state apart from the add
trace, and each appends one enqueue of the same payload to the same queue
name with the same visibility delay (0: no added delay). -/
theorem dispatchWithDelay_zero_equiv_dispatch {α : Type} (options : JobOptions)
    (d : α) (w : World α) :
    (dispatch options d w).1 = (dispatchWithDelay options d 0 w).1 ∧
    stripAdds (dispatch options d w).2 = stripAdds (dispatchWithDelay options d 0 w).2 ∧
    (∃ c c', (dispatch options d w).2.adds = w.adds ++ [c] ∧
      (dispatchWithDelay options d 0 w).2.adds = w.adds ++ [c'] ∧ addEquiv c c') := by
  have hadds : (getQueue options w).2.adds = w.adds := by
    cases hq : w.queue <;> simp [getQueue, hq]
  refine ⟨rfl, rfl, ⟨(getQueue options w).1.name, d, none⟩,
    ⟨⟨(getQueue options w).1.name, d, some ⟨some 0⟩⟩, ?_, ?_, rfl, rfl, rfl⟩⟩
  · simp [dispatch, hadds]
  · simp [dispatchWithDelay, hadds]

/-- C10: after `close` completes, `dispatch` does not fail (it is total in
the model) and is not a no-op: it lazily creates a fresh queue handle,
distinct from the closed one, and enqueues the payload on it. -/
theorem dispatch_after_close_resurrects {α : Type} (options : JobOptions) (d : α)
    (w : World α) (q : QueueHandle) (hq : w.queue = some q)
    (hwf : q.id < w.nextHandle) :
    (dispatch options d (close w).1).2.queue =
      some (dispatch options d (close w).1).1 ∧
    (dispatch options d (close w).1).1.id ≠ q.id ∧
    (dispatch options d (close w).1).2.adds =
      w.adds ++ [⟨(dispatch options d (close w).1).1.name, d, none⟩] ∧
    (dispatch options d (close w).1).2.createdQueues = w.createdQueues + 1 := by
  cases hw : w.worker <;>
    simp [close, dispatch, getQueue, hq, hw] <;>
    exact Nat.ne_of_gt hwf

/-- C10 witness: on the concrete registered state `regW1`, closing and then
dispatching payload 42 creates a new queue handle and records the enqueue. -/
theorem dispatch_after_close_witness :
    (dispatch opts0 42 (close regW1).1).2.queue =
      some (dispatch opts0 42 (close regW1).1).1 ∧
    (dispatch opts0 42 (close regW1).1).1.id ≠ (0 : Nat) ∧
    (dispatch opts0 42 (close regW1).1).2.adds =
      regW1.adds ++ [⟨(dispatch opts0 42 (close regW1).1).1.name, 42, none⟩] ∧
    (dispatch opts0 42 (close regW1).1).2.createdQueues = regW1.createdQueues + 1 :=
  dispatch_after_close_resurrects opts0 42 regW1 ⟨0, "email-job"⟩ rfl (by decide)

/-! ## Helper lemmas for the single-acquisition invariant -/

theorem getQueue_queue_some {α : Type} (options : JobOptions) (w : World α) :
    ((getQueue options w).2).queue = some (getQueue options w).1 := by
  cases hq : w.queue <;> simp [getQueue, hq]

theorem getQueue_of_some {α : Type} (options : JobOptions) (w : World α)
    (q : QueueHandle) (hq : w.queue = some q) : getQueue options w = (q, w) := by
  simp [getQueue, hq]

theorem getQueue_inv {α : Type} (options : JobOptions) (w : World α)
    (h : InvW w) : InvW (getQueue options w).2 := by
  cases hq : w.queue with
  | some q => simpa [getQueue, hq] using h
  | none =>
      refine ⟨?_, ?_⟩ <;> simp [getQueue, hq, h.2 hq]

theorem runOp_queue_persist {α : Type} (options : JobOptions) (w : World α)
    (op : Op α) (q : QueueHandle) (hq : w.queue = some q) :
    (runOp options w op).1.queue = some q := by
  cases op with
  | dispatchOp d => simp [runOp, dispatch, getQueue_of_some options w q hq, hq]
  | dispatchWithDelayOp d delay =>
      simp [runOp, dispatchWithDelay, getQueue_of_some options w q hq, hq]
  | registerOp =>
      by_cases hw : w.worker.isSome <;>
        simp [runOp, register, hw, getQueue_of_some options w q hq, hq]
  | redispatchOp d delay =>
      simp [runOp, redispatch, getQueue_of_some options w q hq, hq]
  | getQueueInstanceOp =>
      simp [runOp, getQueueInstance, getQueue_of_some options w q hq, hq]

theorem runOp_handle_sound {α : Type} (options : JobOptions) (w : World α)
    (op : Op α) (h : QueueHandle) (hh : (runOp options w op).2 = some h) :
    (runOp options w op).1.queue = some h := by
  cases op with
  | dispatchOp d =>
      simp [runOp, dispatch] at hh ⊢
      rw [← hh]
      exact getQueue_queue_some options w
  | dispatchWithDelayOp d delay =>
      simp [runOp, dispatchWithDelay] at hh ⊢
      rw [← hh]
      exact getQueue_queue_some options w
  | registerOp =>
      by_cases hw : w.worker.isSome
      · simp [runOp, register, hw, Except.toOption] at hh
      · simp [runOp, register, hw, Except.toOption] at hh ⊢
        rw [← hh]
        exact getQueue_queue_some options w
  | redispatchOp d delay =>
      simp [runOp, redispatch] at hh ⊢
      rw [← hh]
      exact getQueue_queue_some options w
  | getQueueInstanceOp =>
      simp [runOp, getQueueInstance] at hh ⊢
      rw [← hh]
      exact getQueue_queue_some options w

theorem runOp_inv {α : Type} (options : JobOptions) (w : World α) (op : Op α)
    (h : InvW w) : InvW (runOp options w op).1 := by
  have hg := getQueue_inv options w h
  cases op with
  | dispatchOp d => simpa [runOp, dispatch, InvW] using hg
  | dispatchWithDelayOp d delay => simpa [runOp, dispatchWithDelay, InvW] using hg
  | registerOp =>
      by_cases hw : w.worker.isSome
      · simpa [runOp, register, hw] using h
      · simpa [runOp, register, hw, InvW] using hg
  | redispatchOp d delay => simpa [runOp, redispatch, InvW] using hg
  | getQueueInstanceOp => simpa [runOp, getQueueInstance, InvW] using hg

theorem runOps_queue_persist {α : Type} (options : JobOptions) (ops : List (Op α)) :
    ∀ (w : World α) (q : QueueHandle), w.queue = some q →
      (runOps options w ops).1.queue = some q := by
  induction ops with
  | nil => intro w q hq; simpa [runOps] using hq
  | cons op ops ih =>
      intro w q hq
      simpa [runOps] using ih (runOp options w op).1 q (runOp_queue_persist options w op q hq)

theorem runOps_inv {α : Type} (options : JobOptions) (ops : List (Op α)) :
    ∀ (w : World α), InvW w → InvW (runOps options w ops).1 := by
  induction ops with
  | nil => intro w h; simpa [runOps] using h
  | cons op ops ih =>
      intro w h
      simpa [runOps] using ih (runOp options w op).1 (runOp_inv options w op h)

theorem runOps_handles {α : Type} (options : JobOptions) (ops : List (Op α)) :
    ∀ (w : World α) (h : QueueHandle), h ∈ (runOps options w ops).2 →
      (runOps options w ops).1.queue = some h := by
  induction ops with
  | nil => intro w h hmem; simp [runOps] at hmem
  | cons op ops ih =>
      intro w h hmem
      simp only [runOps, List.mem_append] at hmem
      rcases hmem with hmem | hmem
      · have hsome : (runOp options w op).2 = some h := by
          cases hop : (runOp options w op).2 <;> simp [hop, Option.toList] at hmem
          simp [hmem]
        have h1 := runOp_handle_sound options w op h hsome
        simpa [runOps] using
          runOps_queue_persist options ops (runOp options w op).1 h h1
      · simpa [runOps] using ih (runOp options w op).1 h hmem

/-- C9: starting from a fresh `SimpleJob`, any sequence of `dispatch`,
`dispatchWithDelay`, `register`, `redispatch` and `getQueueInstance`
calls (no `close`) creates at most one underlying queue handle, and every
handle resolved by any of the operations is the one cached handle — so
once created, the same handle is returned to every subsequent operation. -/
theorem single_queue_acquisition {α : Type} (options : JobOptions) (ops : List (Op α)) :
    (runOps options (initWorld α) ops).1.createdQueues ≤ 1 ∧
    (∀ h ∈ (runOps options (initWorld α) ops).2,
      (runOps options (initWorld α) ops).1.queue = some h) ∧
    (∀ h h', h ∈ (runOps options (initWorld α) ops).2 →
      h' ∈ (runOps options (initWorld α) ops).2 → h = h') := by
  have hinv : InvW (initWorld α) := ⟨Nat.zero_le 1, fun _ => rfl⟩
  have hall := runOps_handles options ops (initWorld α)
  refine ⟨(runOps_inv options ops (initWorld α) hinv).1, hall, ?_⟩
  intro h h' hm hm'
  have e2 := hall h' hm'
  rw [hall h hm] at e2
  exact Option.some.inj e2

/-- C9 witness: on the concrete run `opsList` from a fresh job, at most one
queue was created and the handle resolved by the first dispatch is the
cached queue at the end. -/
theorem single_queue_acquisition_witness :
    (runOps opts0 (initWorld Nat) opsList).1.createdQueues ≤ 1 ∧
      (runOps opts0 (initWorld Nat) opsList).1.queue = some ⟨0, "email-job"⟩ :=
  ⟨(single_queue_acquisition opts0 opsList).1,
    (single_queue_acquisition opts0 opsList).2.1 ⟨0, "email-job"⟩ (by decide)⟩
